import Mathlib

/-
Verification of the RAG agent backend (agent_system/agent_backend.py and
agent_system/jupyter_extension.py) against its natural-language specification.
Python functions are shallowly embedded as Lean functions; a raised exception
is modelled as the Option value none.
-/

set_option maxRecDepth 4000

namespace VbtAgent

/-- Model of Python sep.join(parts): the pieces interleaved with the separator. -/
def pyJoin (sep : String) : List String → String
  | [] => ""
  | [p] => p
  | p :: q :: ps => p ++ sep ++ pyJoin sep (q :: ps)

/-- Spaces-joined word list, as in the join with a one-space separator used by
_split_text. -/
def joinWords (ws : List String) : String :=
  pyJoin (" ") ws

/-- Helper for pyStrSplit: walk the characters, accumulating the current word
reversed; whitespace closes a word, empty pieces are dropped. -/
def pyWordsAux : List Char → List Char → List String
  | [], cur => if cur = [] then [] else [String.mk cur.reverse]
  | c :: rest, cur =>
    if c.isWhitespace then
      if cur = [] then pyWordsAux rest []
      else String.mk cur.reverse :: pyWordsAux rest []
    else pyWordsAux rest (c :: cur)

/-- Model of Python text.split() with no argument: split on runs of whitespace
and drop the empty pieces. -/
def pyStrSplit (text : String) : List String :=
  pyWordsAux text.data []

/-- The loop state of _split_text: closed chunks (as word lists), the chunk
under construction, and the running length counter current_length. -/
structure ChunkState where
  chunks : List (List String)
  current : List String
  cur_len : Nat

/-- One iteration of the word loop of _split_text (agent_backend.py lines
80-89). mcs is max_chunk_size, ov is overlap, and L is the constant
len(" ".join(words[:overlap//5])) of line 87; none models the
ZeroDivisionError raised there when L = 0. Nat subtraction models the
max(0, ...) clamp of line 87. -/
def splitStep (mcs ov L : Nat) (st : ChunkState) (word : String) : Option ChunkState :=
  if st.cur_len + word.length + 1 ≤ mcs then
    some { st with
      current := st.current ++ [word]
      cur_len := st.cur_len + word.length + 1 }
  else if L = 0 then
    none
  else
    let start := st.current.length - ov / L
    let cur := st.current.drop start ++ [word]
    some { chunks := st.chunks ++ [st.current]
           current := cur
           cur_len := (joinWords cur).length }

/-- The word-level body of _split_text (agent_backend.py lines 74-92), after
the input text has been split into words. -/
def splitWords (words : List String) (mcs ov : Nat) : Option (List (List String)) :=
  if words = [] then some []
  else
    match List.foldlM (splitStep mcs ov (joinWords (words.take (ov / 5))).length)
        (ChunkState.mk [] [] 0) words with
    | none => none
    | some st => some (if st.current = [] then st.chunks else st.chunks ++ [st.current])

/-- Model of VectorBTProExpert._split_text (agent_backend.py lines 69-92):
none models a raised exception (the ZeroDivisionError of line 87), some the
returned list of chunk strings. -/
def split_text (text : String) (mcs ov : Nat) : Option (List String) :=
  if text = "" then some []
  else (splitWords (pyStrSplit text) mcs ov).map (fun cs => cs.map joinWords)

/-- C1: the spec demands that _split_text never raise a division-by-zero for
any text, maxChunkSize and overlap, naming overlap values smaller than 5 as an
edge case. The code violates this: on the text "aa bb" with max_chunk_size 3
and overlap 4, the second word overflows the chunk and line 87 evaluates
overlap // len(" ".join(words[:overlap//5])) with overlap//5 = 0, so the
joined slice is empty, its length is 0, and Python raises ZeroDivisionError,
modelled here as the none result. -/
theorem split_text_zero_division : split_text ("aa bb") 3 4 = none := by decide

/-- Words contributed by each chunk of the list after the first once the
carried overlap words are removed; each chunk drops min(previous chunk's word
count, k) words, where prev is the chunk preceding the list's head and
k = overlap // L is the carried word count of line 87. -/
def reconAux (k : Nat) (prev : List String) : List (List String) → List String
  | [] => []
  | c :: cs => c.drop (min prev.length k) ++ reconAux k c cs

/-- Concatenation of the chunks' word lists with each chunk's carried overlap
words removed: the first chunk contributes all its words, each later chunk
drops the min(previous chunk's word count, k) words carried over from its
predecessor by lines 87-88. -/
def reconstruct (k : Nat) : List (List String) → List String
  | [] => []
  | c :: cs => c ++ reconAux k c cs

/-- The input words represented by an intermediate loop state: the closed
chunks with carried overlap removed, then the words of the open chunk that
were not carried over from the last closed chunk. -/
def repState (k : Nat) (st : ChunkState) : List String :=
  if st.chunks = [] then st.current
  else reconstruct k st.chunks ++ st.current.drop (min (st.chunks.getLastD []).length k)

/-- Loop invariant: the open chunk always retains at least the words carried
over from the last closed chunk. -/
def StInv (k : Nat) (st : ChunkState) : Prop :=
  st.chunks ≠ [] → min (st.chunks.getLastD []).length k ≤ st.current.length

theorem reconAux_concat (k : Nat) (d : List String) (cs : List (List String)) :
    ∀ prev : List String,
      reconAux k prev (cs ++ [d]) =
        reconAux k prev cs ++ d.drop (min (cs.getLastD prev).length k) := by
  induction cs with
  | nil => intro prev; simp [reconAux]
  | cons c cs ih =>
    intro prev
    rw [List.cons_append]
    show List.drop (min prev.length k) c ++ reconAux k c (cs ++ [d]) = _
    rw [ih c, List.getLastD_cons]
    simp [reconAux, List.append_assoc]

theorem reconstruct_concat (k : Nat) (d : List String) (cs : List (List String))
    (h : cs ≠ []) :
    reconstruct k (cs ++ [d]) =
      reconstruct k cs ++ d.drop (min (cs.getLastD []).length k) := by
  match cs, h with
  | c :: cs, _ =>
    simp only [List.cons_append, reconstruct, reconAux_concat,
      List.getLastD_cons, List.append_assoc]

theorem splitStep_rep (mcs ov L : Nat) (st st' : ChunkState) (w : String)
    (hstep : splitStep mcs ov L st w = some st') (hinv : StInv (ov / L) st) :
    StInv (ov / L) st' ∧ repState (ov / L) st' = repState (ov / L) st ++ [w] := by
  obtain ⟨chunks, current, len⟩ := st
  unfold splitStep at hstep
  unfold StInv at hinv
  unfold StInv repState
  simp only at hinv
  by_cases hfit : len + w.length + 1 ≤ mcs
  · rw [if_pos hfit] at hstep
    injection hstep with hstep
    subst hstep
    simp only
    refine ⟨?_, ?_⟩
    · intro hne
      have := hinv hne
      simp only [List.length_append, List.length_cons, List.length_nil]
      omega
    · by_cases hch : chunks = []
      · simp [hch]
      · have hle := hinv hch
        rw [if_neg hch, if_neg hch, List.drop_append_of_le_length hle,
          List.append_assoc]
  · rw [if_neg hfit] at hstep
    by_cases hL : L = 0
    · rw [if_pos hL] at hstep
      exact absurd hstep (by simp)
    · rw [if_neg hL] at hstep
      injection hstep with hstep
      subst hstep
      simp only
      have hlen : (current.drop (current.length - ov / L)).length
          = min current.length (ov / L) := by
        rw [List.length_drop, Nat.sub_sub_eq_min]
      have hne2 : chunks ++ [current] ≠ [] := by simp
      have hdrop : (current.drop (current.length - ov / L) ++ [w]).drop
          (min current.length (ov / L)) = [w] := by
        rw [← hlen, List.drop_left]
      refine ⟨?_, ?_⟩
      · intro _
        rw [List.getLastD_concat]
        simp only [List.length_append, hlen, List.length_cons, List.length_nil]
        omega
      · rw [if_neg hne2, List.getLastD_concat, hdrop]
        by_cases hch : chunks = []
        · subst hch
          rw [if_pos rfl]
          simp [reconstruct, reconAux]
        · rw [if_neg hch, reconstruct_concat _ _ _ hch, List.append_assoc]

theorem foldlM_splitStep_rep (mcs ov L : Nat) :
    ∀ (ws : List String) (st st' : ChunkState),
      List.foldlM (splitStep mcs ov L) st ws = some st' → StInv (ov / L) st →
      StInv (ov / L) st' ∧ repState (ov / L) st' = repState (ov / L) st ++ ws
  | [], st, st' => by
    intro h hinv
    simp only [List.foldlM_nil] at h
    injection h with h
    subst h
    exact ⟨hinv, by simp⟩
  | w :: ws, st, st' => by
    intro h hinv
    rw [List.foldlM_cons] at h
    cases h1 : splitStep mcs ov L st w with
    | none => rw [h1] at h; exact absurd h (by simp)
    | some st1 =>
      rw [h1] at h
      simp only [Option.bind_eq_bind, Option.some_bind] at h
      obtain ⟨hinv1, hrep1⟩ := splitStep_rep mcs ov L st st1 w h1 hinv
      obtain ⟨hinv2, hrep2⟩ := foldlM_splitStep_rep mcs ov L ws st1 st' h hinv1
      refine ⟨hinv2, ?_⟩
      rw [hrep2, hrep1, List.append_assoc]
      rfl

theorem splitWords_reconstruct (words : List String) (mcs ov : Nat)
    (cs : List (List String)) (h : splitWords words mcs ov = some cs) :
    reconstruct (ov / (joinWords (words.take (ov / 5))).length) cs = words := by
  unfold splitWords at h
  by_cases hw : words = []
  · rw [if_pos hw] at h
    injection h with h
    subst h
    subst hw
    rfl
  · rw [if_neg hw] at h
    cases hfold : List.foldlM
        (splitStep mcs ov (joinWords (words.take (ov / 5))).length)
        (ChunkState.mk [] [] 0) words with
    | none => rw [hfold] at h; exact absurd h (by simp)
    | some st =>
      rw [hfold] at h
      injection h with h
      have hrep := foldlM_splitStep_rep mcs ov (joinWords (words.take (ov / 5))).length
        words (ChunkState.mk [] [] 0) st hfold (fun hne => absurd rfl hne)
      set k := ov / (joinWords (words.take (ov / 5))).length with hk
      have hwords : repState k st = words := by
        rw [hrep.2]; rfl
      subst h
      rw [← hwords]
      by_cases hcur : st.current = []
      · rw [if_pos hcur]
        by_cases hch : st.chunks = []
        · simp [repState, hch, hcur, reconstruct]
        · simp [repState, hch, hcur]
      · rw [if_neg hcur]
        by_cases hch : st.chunks = []
        · simp [repState, hch, reconstruct, reconAux]
        · rw [reconstruct_concat _ _ _ hch]
          simp [repState, hch]

/-- C5 (amended): whenever _split_text returns without raising, the
concatenation of the words of its chunks, with the min(previous chunk's word
count, overlap // L) carried overlap words of each later chunk removed
(L = len(" ".join(words[:overlap//5]))), equals the original word sequence in
order; the chunk-size part of the claim is false, see the counterexample. -/
theorem split_text_reconstructs_words (text : String) (mcs ov : Nat)
    (cs : List (List String))
    (h : splitWords (pyStrSplit text) mcs ov = some cs) :
    split_text text mcs ov = some (cs.map joinWords) ∧
    reconstruct (ov / (joinWords ((pyStrSplit text).take (ov / 5))).length) cs
      = pyStrSplit text := by
  refine ⟨?_, splitWords_reconstruct _ _ _ _ h⟩
  unfold split_text
  by_cases ht : text = ""
  · have hnil : pyStrSplit text = [] := by rw [ht]; rfl
    rw [hnil] at h
    unfold splitWords at h
    rw [if_pos rfl] at h
    injection h with h
    rw [if_pos ht, ← h]
    rfl
  · rw [if_neg ht, h]
    rfl

/-- C5 counterexample: on the text "a b ccc ddd eee fff" with
max_chunk_size 10 and overlap 10, every input word has length at most 3, but
_split_text returns the chunk "ccc ddd eee fff" of length 15 > 10 + 3, so a
returned chunk exceeds maxChunkSize by more than the length of one word. -/
theorem split_text_chunk_bound_counterexample :
    split_text ("a b ccc ddd eee fff") 10 10 =
      some ["a b ccc", "a b ccc ddd", "b ccc ddd eee", "ccc ddd eee fff"] ∧
    (pyStrSplit ("a b ccc ddd eee fff")).all (fun w => w.length ≤ 3) = true ∧
    10 + 3 < ("ccc ddd eee fff" : String).length := by
  refine ⟨by decide, by decide, by decide⟩

/-- Witness for split_text_reconstructs_words at a concrete input. -/
theorem split_text_reconstructs_words_witness :
    split_text ("hello brave new world") 12 6 =
      some (([["hello", "brave"], ["brave", "new"], ["new", "world"]]).map joinWords) ∧
    reconstruct
        (6 / (joinWords ((pyStrSplit ("hello brave new world")).take (6 / 5))).length)
        [["hello", "brave"], ["brave", "new"], ["new", "world"]]
      = pyStrSplit ("hello brave new world") :=
  split_text_reconstructs_words ("hello brave new world") 12 6
    [["hello", "brave"], ["brave", "new"], ["new", "world"]] (by decide)

/-- Lookup in a Python dict with string keys and values, modelled as an
association list; models both the key-membership test and d[key] access. -/
def dictLookup (d : List (String × String)) (key : String) : Option String :=
  match d.find? (fun p => p.1 = key) with
  | some p => some p.2
  | none => none

/-- One history turn rendered as role: content (agent_backend.py line 224);
none when the key check of line 223 fails and the malformed turn is skipped
with a logged warning. -/
def renderTurn (turn : List (String × String)) : Option String :=
  match dictLookup turn ("role"), dictLookup turn ("content") with
  | some r, some c => some (r ++ ": " ++ c)
  | _, _ => none

/-- The prompt construction of generate_response (agent_backend.py lines
213-231): the system prompt, the labelled context block when the joined
retrieved chunks are non-empty, the labelled history block when the history
list is present and non-empty, the labelled query and the Answer marker,
all joined with the newline separator of line 231. -/
def assemble_prompt (system_prompt : String) (rag_context_chunks : List String)
    (context : Option (List (List (String × String)))) (user_query : String) : String :=
  let rag_context_str := pyJoin ("\n\n") rag_context_chunks
  let p1 := [system_prompt]
  let p2 := if rag_context_str = "" then p1
    else p1 ++ ["\nRelevant context from documentation:\n", rag_context_str]
  let p3 := match context with
    | none => p2
    | some turns =>
      if turns = [] then p2
      else p2 ++ ["\nPrevious conversation history:\n"] ++ turns.filterMap renderTurn
  pyJoin ("\n") (p3 ++ ["\nUser query: " ++ user_query, "\nAnswer:\n"])

/-- C3 counterexample: with system prompt "S" and query "Q", no retrieved
chunks and no history, the assembled prompt is "S\n\nUser query:
Q\n\nAnswer:\n" — the join of line 231 inserts a newline between parts that
already begin with their own newline — which differs from the claimed
sys + "\nUser query: Q\nAnswer:\n". -/
theorem assemble_prompt_counterexample :
    assemble_prompt ("S") [] none ("Q") ≠ "S" ++ "\nUser query: " ++ "Q" ++ "\nAnswer:\n" ∧
    assemble_prompt ("S") [] none ("Q") = "S\n\nUser query: Q\n\nAnswer:\n" := by
  refine ⟨by decide, by decide⟩

/-- C3 (amended): for every system prompt sys and query Q, assembling with no
retrieved chunks and an empty or absent history yields exactly
sys ++ "\n\nUser query: " ++ Q ++ "\n\nAnswer:\n": the context and history
blocks are omitted entirely, and the newline of the "\n".join doubles the
leading newline each remaining labelled part carries itself. -/
theorem assemble_prompt_empty_blocks (sys q : String) :
    assemble_prompt sys [] none q = sys ++ "\n\nUser query: " ++ q ++ "\n\nAnswer:\n" ∧
    assemble_prompt sys [] (some []) q = sys ++ "\n\nUser query: " ++ q ++ "\n\nAnswer:\n" := by
  constructor <;>
  · show pyJoin ("\n") [sys, "\nUser query: " ++ q, "\nAnswer:\n"] = _
    apply String.ext
    simp only [pyJoin, String.data_append, List.append_assoc, List.cons_append,
      List.singleton_append, List.nil_append]

/-- One content part of a Gemini candidate. -/
structure GenPart where
  text : String

/-- The content object of a Gemini candidate: its list of parts. -/
structure GenContent where
  parts : List GenPart

/-- One Gemini candidate; a None content models a structurally empty
candidate. -/
structure GenCandidate where
  content : Option GenContent

/-- The prompt feedback of a Gemini response; a none block_reason models a
falsy (absent or unspecified) block reason. -/
structure GenPromptFeedback where
  block_reason : Option String

/-- The payload returned by gen_model.generate_content. -/
structure GeminiResponse where
  candidates : List GenCandidate
  prompt_feedback : Option GenPromptFeedback

/-- The outcome of the external model call of agent_backend.py lines 237-242:
either a returned payload, or a raised transport/API exception carrying its
message. -/
inductive ModelOutcome where
  | ok (resp : GeminiResponse)
  | exn (msg : String)

/-- The truthiness chain of line 243: response and response.candidates and
response.candidates[0].content and response.candidates[0].content.parts. -/
def hasContentParts (r : GeminiResponse) : Bool :=
  match r.candidates with
  | [] => false
  | c :: _ =>
    match c.content with
    | none => false
    | some ct => !ct.parts.isEmpty

/-- The joined part texts of line 244. -/
def joinedParts (r : GeminiResponse) : String :=
  match r.candidates with
  | c :: _ =>
    match c.content with
    | some ct => pyJoin ("") (ct.parts.map GenPart.text)
    | none => ""
  | [] => ""

/-- The truthiness chain of line 247: response and response.prompt_feedback
and response.prompt_feedback.block_reason. -/
def blockReasonOf (r : GeminiResponse) : Option String :=
  match r.prompt_feedback with
  | none => none
  | some fb => fb.block_reason

/-- One markdown file of the documentation corpus: its Path.stem, its path
relative to the corpus root, and its raw content. -/
structure MDFile where
  stem : String
  relpath : String
  content : String
  deriving DecidableEq

/-- The corpus filesystem behind self.docs_path: whether the root exists as a
directory, and the markdown files found by rglob. -/
structure CorpusFS where
  docs_exists : Bool
  md_files : List MDFile
  deriving DecidableEq

/-- One stored chunk of the ChromaDB collection: id, document text and source
metadata. -/
structure StoredDoc where
  id : String
  document : String
  source : String
  deriving DecidableEq

/-- The ChromaDB collection handle: the stored documents in insertion order. -/
structure Collection where
  docs : List StoredDoc
  deriving DecidableEq

/-- The VectorBTProExpert agent object: system prompt, documentation path
(with the corpus filesystem behind it), collection handle and the
is_initialized flag. -/
structure VectorBTProExpert where
  system_prompt : String
  docs : CorpusFS
  collection : Collection
  is_initialized : Bool

/-- Model of VectorBTProExpert.generate_response (agent_backend.py lines
203-259). rag_context_chunks stands for the search_knowledge_base result
(degraded to [] on storage failure) and outcome for the external call of
gen_model.generate_content on the assembled prompt: every branch returns a
string and no branch raises, the try of lines 235-257 catching everything. -/
def generate_response (a : VectorBTProExpert) (user_query : String)
    (context : Option (List (List (String × String))))
    (rag_context_chunks : List String) (outcome : ModelOutcome) : String :=
  if a.is_initialized = false then
    "Error: Agent not initialized. Please initialize first."
  else
    let _final_prompt := assemble_prompt a.system_prompt rag_context_chunks context user_query
    match outcome with
    | ModelOutcome.exn _ => "Error: Could not connect to the generative model."
    | ModelOutcome.ok r =>
      if hasContentParts r then joinedParts r
      else
        match blockReasonOf r with
        | some reason =>
          "Sorry, I could not generate a response. The request was blocked due to: "
            ++ reason ++ "."
        | none =>
          "Sorry, I could not generate a response at this time (empty or unexpected response structure)."

/-- C4: on an initialized session generate_response is total and normalizes
each model outcome: a transport/API exception maps to the fixed
connection-error string, a blocked payload (no content parts, truthy block
reason) maps to a string containing the literal block reason, and an empty or
structurally unexpected payload maps to the fixed fallback message. -/
theorem generate_response_normalizes (a : VectorBTProExpert) (q : String)
    (ctx : Option (List (List (String × String)))) (rag : List String)
    (out : ModelOutcome) (hinit : a.is_initialized = true) :
    (∀ e, out = ModelOutcome.exn e →
      generate_response a q ctx rag out
        = "Error: Could not connect to the generative model.") ∧
    (∀ r reason, out = ModelOutcome.ok r → hasContentParts r = false →
      blockReasonOf r = some reason →
      ∃ s1 s2, generate_response a q ctx rag out = s1 ++ reason ++ s2) ∧
    (∀ r, out = ModelOutcome.ok r → hasContentParts r = false →
      blockReasonOf r = none →
      generate_response a q ctx rag out
        = "Sorry, I could not generate a response at this time (empty or unexpected response structure).") := by
  refine ⟨?_, ?_, ?_⟩
  · intro e he
    subst he
    simp [generate_response, hinit]
  · intro r reason hr hparts hblock
    subst hr
    refine ⟨"Sorry, I could not generate a response. The request was blocked due to: ", ".", ?_⟩
    simp [generate_response, hinit, hparts, hblock]
  · intro r hr hparts hblock
    subst hr
    simp [generate_response, hinit, hparts, hblock]

/-- Witness for generate_response_normalizes: the three outcome shapes at
concrete inputs. -/
theorem generate_response_normalizes_witness :
    generate_response (VectorBTProExpert.mk ("sys") (CorpusFS.mk true []) (Collection.mk []) true)
        ("q") none [] (ModelOutcome.exn ("boom"))
      = "Error: Could not connect to the generative model." ∧
    (∃ s1 s2,
      generate_response (VectorBTProExpert.mk ("sys") (CorpusFS.mk true []) (Collection.mk []) true)
          ("q") none []
          (ModelOutcome.ok (GeminiResponse.mk []
            (some (GenPromptFeedback.mk (some ("SAFETY"))))))
        = s1 ++ "SAFETY" ++ s2) ∧
    generate_response (VectorBTProExpert.mk ("sys") (CorpusFS.mk true []) (Collection.mk []) true)
        ("q") none [] (ModelOutcome.ok (GeminiResponse.mk [] none))
      = "Sorry, I could not generate a response at this time (empty or unexpected response structure)." :=
  ⟨(generate_response_normalizes _ _ none [] _ rfl).1 ("boom") rfl,
   (generate_response_normalizes _ _ none [] _ rfl).2.1 _ ("SAFETY") rfl rfl rfl,
   (generate_response_normalizes _ _ none [] _ rfl).2.2 _ rfl rfl rfl⟩

/-- First index at which pat occurs in s, scanning left to right; none when
pat never occurs. Models the leftmost-match search of re.search. -/
def findSubFrom (pat : List Char) : List Char → Option Nat
  | [] => if pat = [] then some 0 else none
  | c :: rest =>
    if (c :: rest).take pat.length = pat then some 0
    else (findSubFrom pat rest).map (fun n => n + 1)

/-- The literal opening of the regex pattern of agent_backend.py line 301. -/
def fenceOpen : List Char :=
  ("```python\n").data

/-- The literal closing of the regex pattern of line 301. -/
def fenceClose : List Char :=
  ("\n```").data

/-- Model of Python str.strip(): drop leading and trailing whitespace. -/
def pyStrip (s : List Char) : List Char :=
  (((s.dropWhile Char.isWhitespace).reverse).dropWhile Char.isWhitespace).reverse

/-- Model of extract_python_code (agent_backend.py lines 299-304): the
leftmost match of the lazy DOTALL pattern, its inner group stripped of
leading and trailing whitespace; none when the pattern has no match. -/
def extract_python_code (text : String) : Option String :=
  match findSubFrom fenceOpen text.data with
  | none => none
  | some i =>
    match findSubFrom fenceClose (text.data.drop (i + fenceOpen.length)) with
    | none => none
    | some j =>
      some (String.mk (pyStrip ((text.data.drop (i + fenceOpen.length)).take j)))

/-- pat occurs in s at index i. -/
def subAt (pat s : List Char) (i : Nat) : Prop :=
  (s.drop i).take pat.length = pat

instance (pat s : List Char) (i : Nat) : Decidable (subAt pat s i) :=
  inferInstanceAs (Decidable ((s.drop i).take pat.length = pat))

theorem findSubFrom_subAt (pat : List Char) :
    ∀ (s : List Char) (n : Nat), findSubFrom pat s = some n → subAt pat s n
  | [], n => by
    intro h
    unfold findSubFrom at h
    by_cases hp : pat = []
    · rw [if_pos hp] at h
      injection h with h
      subst h
      subst hp
      rfl
    · rw [if_neg hp] at h
      exact absurd h (by simp)
  | c :: rest, n => by
    intro h
    unfold findSubFrom at h
    by_cases hm : (c :: rest).take pat.length = pat
    · rw [if_pos hm] at h
      injection h with h
      subst h
      exact hm
    · rw [if_neg hm] at h
      cases hr : findSubFrom pat rest with
      | none => rw [hr] at h; exact absurd h (by simp)
      | some m =>
        rw [hr] at h
        simp only [Option.map_some'] at h
        injection h with h
        subst h
        exact findSubFrom_subAt pat rest m hr

theorem subAt_findSubFrom (pat : List Char) :
    ∀ (n : Nat) (s : List Char), subAt pat s n → (∀ i, i < n → ¬ subAt pat s i) →
      findSubFrom pat s = some n
  | 0, s => by
    intro hs _
    cases s with
    | nil =>
      unfold findSubFrom
      have hp : pat = [] := by
        have := hs
        unfold subAt at this
        simpa using this.symm
      rw [if_pos hp]
    | cons c rest =>
      unfold findSubFrom
      have hs2 : List.take pat.length (c :: rest) = pat := hs
      rw [if_pos hs2]
  | n + 1, s => by
    intro hs hmin
    cases s with
    | nil =>
      exfalso
      have hp : pat = [] := by
        have := hs
        unfold subAt at this
        simpa using this.symm
      exact hmin 0 (Nat.succ_pos n) (by unfold subAt; simp [hp])
    | cons c rest =>
      unfold findSubFrom
      have h0 : ¬ (c :: rest).take pat.length = pat :=
        fun hc => hmin 0 (Nat.succ_pos n) hc
      rw [if_neg h0,
        subAt_findSubFrom pat n rest hs
          (fun i hi hsub => hmin (i + 1) (Nat.succ_lt_succ hi) hsub)]
      rfl

theorem subAt_lt_length (pat s : List Char) (i : Nat) (hp : pat ≠ [])
    (h : subAt pat s i) : i < s.length := by
  by_contra hle
  push_neg at hle
  apply hp
  have hdrop : s.drop i = [] := List.drop_eq_nil_of_le hle
  unfold subAt at h
  rw [hdrop] at h
  simpa using h.symm

/-- C7: for every text containing a python-fenced block (the leftmost fence
opening followed somewhere by a closing fence), extract_python_code returns
the first such block's inner content with the lazily shortest extent,
stripped of leading and trailing whitespace; for every text with no such
fenced pair it returns none rather than an error. -/
theorem extract_python_code_correct :
    (∀ pre inner post : List Char,
      (∀ i, i < pre.length →
        ¬ subAt fenceOpen (pre ++ fenceOpen ++ inner ++ fenceClose ++ post) i) →
      (∀ j, j < inner.length →
        ¬ subAt fenceClose (inner ++ fenceClose ++ post) j) →
      extract_python_code
          (String.mk (pre ++ fenceOpen ++ inner ++ fenceClose ++ post))
        = some (String.mk (pyStrip inner))) ∧
    (∀ text : String,
      (∀ i, i < text.data.length → ∀ j, j < text.data.length →
        ¬ (subAt fenceOpen text.data i ∧
           subAt fenceClose text.data (i + fenceOpen.length + j))) →
      extract_python_code text = none) := by
  constructor
  · intro pre inner post hpre hinner
    have hdata : (String.mk (pre ++ fenceOpen ++ inner ++ fenceClose ++ post)).data
        = pre ++ (fenceOpen ++ (inner ++ (fenceClose ++ post))) := by
      simp [List.append_assoc]
    have hopen : findSubFrom fenceOpen
        (String.mk (pre ++ fenceOpen ++ inner ++ fenceClose ++ post)).data
        = some pre.length := by
      apply subAt_findSubFrom
      · unfold subAt
        rw [hdata, List.drop_left, List.take_left]
      · intro i hi hsub
        refine hpre i hi ?_
        unfold subAt at hsub ⊢
        rw [hdata] at hsub
        simpa [List.append_assoc] using hsub
    have hrest : (String.mk (pre ++ fenceOpen ++ inner ++ fenceClose ++ post)).data.drop
        (pre.length + fenceOpen.length) = inner ++ (fenceClose ++ post) := by
      have : (String.mk (pre ++ fenceOpen ++ inner ++ fenceClose ++ post)).data
          = (pre ++ fenceOpen) ++ (inner ++ (fenceClose ++ post)) := by
        simp [List.append_assoc]
      rw [this, ← List.length_append pre fenceOpen, List.drop_left]
    have hclose : findSubFrom fenceClose
        ((String.mk (pre ++ fenceOpen ++ inner ++ fenceClose ++ post)).data.drop
          (pre.length + fenceOpen.length)) = some inner.length := by
      rw [hrest]
      apply subAt_findSubFrom
      · unfold subAt
        rw [List.drop_left, List.take_left]
      · intro j hj hsub
        refine hinner j hj ?_
        unfold subAt at hsub ⊢
        simpa [List.append_assoc] using hsub
    unfold extract_python_code
    rw [hopen]
    rw [hrest] at hclose
    simp only [hrest, hclose, List.take_left]
  · intro text hno
    unfold extract_python_code
    cases hopen : findSubFrom fenceOpen text.data with
    | none => rfl
    | some i =>
      cases hclose : findSubFrom fenceClose (text.data.drop (i + fenceOpen.length)) with
      | none => simp [hclose]
      | some j =>
        exfalso
        have h1 := findSubFrom_subAt _ _ _ hopen
        have h2 := findSubFrom_subAt _ _ _ hclose
        have hi : i < text.data.length :=
          subAt_lt_length _ _ _ (by decide) h1
        have hj : j < text.data.length := by
          have := subAt_lt_length _ _ _ (by decide) h2
          rw [List.length_drop] at this
          omega
        refine hno i hi j hj ⟨h1, ?_⟩
        unfold subAt at h2 ⊢
        rw [List.drop_drop] at h2
        exact h2

/-- Witness for extract_python_code_correct: both parts at concrete texts. -/
theorem extract_python_code_correct_witness :
    extract_python_code
        (String.mk (("Use this:\n").data ++ fenceOpen ++ ("print(1)").data
          ++ fenceClose ++ ("\ndone").data))
      = some (String.mk (pyStrip (("print(1)").data))) ∧
    extract_python_code ("no fenced block here") = none :=
  ⟨extract_python_code_correct.1 (("Use this:\n").data) (("print(1)").data)
      (("\ndone").data) (by decide) (by decide),
   extract_python_code_correct.2 ("no fenced block here") (by decide)⟩

/-- The module-level DEFAULT_SYSTEM_PROMPT (agent_backend.py lines 24-40). -/
def DEFAULT_SYSTEM_PROMPT : String :=
  "You are an expert in vectorbt and vectorbtpro, a Python library for backtesting and analyzing trading strategies.
Your goal is to provide accurate, helpful, and code-centric answers to users' questions about vectorbt and vectorbtpro.
When a user asks a question, you will be given relevant context from the vectorbtpro documentation.
Use this context to inform your answer. If the context is insufficient or the question is ambiguous, ask clarifying questions.
If the user's query can be best answered with a code example, provide a complete, runnable Python code snippet using vectorbtpro.
Ensure the code is well-commented and directly addresses the user's query.
If the query is about a concept, explain it clearly and concisely, referencing the documentation where appropriate.
Do not make up information. If you don't know the answer, say so.
You can also be asked to explain code, debug code, or convert code from other libraries to vectorbtpro.
When providing code, always ensure it is for vectorbtpro.
You are interacting with a user through a JupyterLab extension. The user can execute the code you provide.
Focus on being helpful and providing practical, actionable solutions.
If you are providing a Python code block, make sure it is enclosed in triple backticks with the language specifier, like this:
```python
# Your Python code here
```
"

/-- The ids and chunk texts produced for one markdown file by the loop of
agent_backend.py lines 139-163: the rendered plain text is chunked with the
default parameters and each chunk gets the id f-string stem_i of line 155;
a file whose processing raises (none from the chunker) is skipped whole by
the per-file except of lines 168-169. render models the external
markdown-to-plain-text conversion of lines 147-149. -/
def chunkIdsOf (render : String → String) (f : MDFile) : List (String × String) :=
  match split_text (render f.content) 1000 200 with
  | none => []
  | some chunks => chunks.enum.map (fun p => (f.stem ++ "_" ++ toString p.1, p.2))

/-- The up-front duplicate check of agent_backend.py lines 125-137: the ids
already stored, fetched only when the collection count is positive. -/
def existingIdsOf (c : Collection) : List String :=
  if 0 < c.docs.length then c.docs.map StoredDoc.id else []

/-- The batch documents_to_add built by the file loop of lines 139-163: per
file, the chunk/id pairs whose id is not among the pre-fetched existing ids,
with the source metadata of line 161. -/
def newDocsOf (render : String → String) (fs : CorpusFS) (c : Collection) :
    List StoredDoc :=
  fs.md_files.flatMap (fun f =>
    (chunkIdsOf render f).filterMap (fun p =>
      if p.1 ∈ existingIdsOf c then none
      else some (StoredDoc.mk p.1 p.2 f.relpath)))

/-- Model of VectorBTProExpert.initialize_knowledge_base (agent_backend.py
lines 94-185): a missing documentation root leaves the flag false (lines
108-111); an empty corpus leaves the collection untouched with the flag true
(lines 113-117); otherwise the ids already stored are fetched once (lines
125-137), chunks whose id is already present are skipped (lines 154-158) and
the remaining chunks are appended to the collection in one batch (lines
171-179), after which the flag becomes true (line 184). -/
def initialize_knowledge_base (render : String → String) (a : VectorBTProExpert) :
    VectorBTProExpert :=
  if a.docs.docs_exists = false then
    { a with is_initialized := false }
  else if a.docs.md_files = [] then
    { a with is_initialized := true }
  else
    { a with
      collection := Collection.mk (a.collection.docs ++ newDocsOf render a.docs a.collection)
      is_initialized := true }

/-- The reported outcome of the initialize endpoint: an HTTP 200 body with
status success or warning, or an HTTPException 500 failure. -/
inductive InitStatus where
  | success
  | warning
  | failure
  deriving DecidableEq

/-- Model of initialize_agent_endpoint (agent_backend.py lines 307-346): a
fresh agent is built over the request's docs path and the persistent
collection c, the knowledge base is initialized, and the outcome is success
when the collection count is positive, warning when initialized over an empty
or missing corpus, and failure (HTTPException 500) when is_initialized is
false. -/
def initialize_agent_endpoint (render : String → String) (fs : CorpusFS)
    (c : Collection) : InitStatus × VectorBTProExpert :=
  let agent := initialize_knowledge_base render
    (VectorBTProExpert.mk DEFAULT_SYSTEM_PROMPT fs c false)
  if agent.is_initialized then
    if 0 < agent.collection.docs.length then (InitStatus.success, agent)
    else if fs.docs_exists && fs.md_files.isEmpty then (InitStatus.warning, agent)
    else if !fs.docs_exists then (InitStatus.warning, agent)
    else (InitStatus.warning, agent)
  else (InitStatus.failure, agent)

/-- C2 counterexample: with a nonexistent corpus root the indexing pass sets
is_initialized to False (agent_backend.py line 110) and the initialize
endpoint takes the else branch of lines 337-341 and raises HTTPException 500:
the claimed initialized-but-empty state with a ready/warning outcome does not
occur. -/
theorem initialize_missing_root_counterexample :
    (initialize_agent_endpoint id (CorpusFS.mk false []) (Collection.mk [])).1
      = InitStatus.failure ∧
    (initialize_agent_endpoint id (CorpusFS.mk false []) (Collection.mk [])).2.is_initialized
      = false := by
  exact ⟨rfl, rfl⟩

/-- C2 (amended): when the corpus root does not exist,
initialize_knowledge_base leaves is_initialized false and the collection
untouched, and the initialize operation reports a failure (HTTPException 500)
rather than a ready/warning outcome. -/
theorem initialize_missing_root (render : String → String) (fs : CorpusFS)
    (c : Collection) (hfs : fs.docs_exists = false) :
    (initialize_knowledge_base render
        (VectorBTProExpert.mk DEFAULT_SYSTEM_PROMPT fs c false)).is_initialized = false ∧
    (initialize_knowledge_base render
        (VectorBTProExpert.mk DEFAULT_SYSTEM_PROMPT fs c false)).collection = c ∧
    (initialize_agent_endpoint render fs c).1 = InitStatus.failure := by
  unfold initialize_agent_endpoint initialize_knowledge_base
  simp [hfs]

/-- Witness for initialize_missing_root at a concrete missing corpus. -/
theorem initialize_missing_root_witness :
    (initialize_knowledge_base id
        (VectorBTProExpert.mk DEFAULT_SYSTEM_PROMPT (CorpusFS.mk false [MDFile.mk ("a") ("a.md") ("x")])
          (Collection.mk []) false)).is_initialized = false ∧
    (initialize_knowledge_base id
        (VectorBTProExpert.mk DEFAULT_SYSTEM_PROMPT (CorpusFS.mk false [MDFile.mk ("a") ("a.md") ("x")])
          (Collection.mk []) false)).collection = Collection.mk [] ∧
    (initialize_agent_endpoint id (CorpusFS.mk false [MDFile.mk ("a") ("a.md") ("x")])
        (Collection.mk [])).1 = InitStatus.failure :=
  initialize_missing_root id (CorpusFS.mk false [MDFile.mk ("a") ("a.md") ("x")])
    (Collection.mk []) rfl

theorem mem_newDocsOf_ids (render : String → String) (fs : CorpusFS)
    (c : Collection) (f : MDFile) (p : String × String)
    (hf : f ∈ fs.md_files) (hp : p ∈ chunkIdsOf render f) :
    p.1 ∈ c.docs.map StoredDoc.id ∨ p.1 ∈ (newDocsOf render fs c).map StoredDoc.id := by
  by_cases hmem : p.1 ∈ existingIdsOf c
  · left
    unfold existingIdsOf at hmem
    by_cases hpos : 0 < c.docs.length
    · rwa [if_pos hpos] at hmem
    · rw [if_neg hpos] at hmem
      exact absurd hmem (List.not_mem_nil _)
  · right
    refine List.mem_map.mpr ⟨StoredDoc.mk p.1 p.2 f.relpath, ?_, rfl⟩
    refine List.mem_flatMap.mpr ⟨f, hf, ?_⟩
    exact List.mem_filterMap.mpr ⟨p, hp, by rw [if_neg hmem]⟩

theorem newDocsOf_idempotent (render : String → String) (fs : CorpusFS)
    (c : Collection) :
    newDocsOf render fs (Collection.mk (c.docs ++ newDocsOf render fs c)) = [] := by
  rw [List.eq_nil_iff_forall_not_mem]
  intro d hd
  obtain ⟨f, hf, hdf⟩ := List.mem_flatMap.mp hd
  obtain ⟨p, hp, hphi⟩ := List.mem_filterMap.mp hdf
  have hmem : p.1 ∈ (Collection.mk (c.docs ++ newDocsOf render fs c)).docs.map StoredDoc.id := by
    show p.1 ∈ (c.docs ++ newDocsOf render fs c).map StoredDoc.id
    rw [List.map_append, List.mem_append]
    exact mem_newDocsOf_ids render fs c f p hf hp
  have hpos : 0 < (Collection.mk (c.docs ++ newDocsOf render fs c)).docs.length := by
    rcases List.mem_map.mp hmem with ⟨doc, hdoc, _⟩
    exact List.length_pos.mpr (List.ne_nil_of_mem hdoc)
  have hex2 : p.1 ∈ existingIdsOf (Collection.mk (c.docs ++ newDocsOf render fs c)) := by
    unfold existingIdsOf
    rw [if_pos hpos]
    exact hmem
  rw [if_pos hex2] at hphi
  exact absurd hphi (by simp)

/-- C6: running the indexing pass a second time over the same unchanged
corpus leaves the collection exactly unchanged — every chunk id generated the
second time is already present and is skipped, so the batch stays empty, the
document count is unchanged and no duplicate id is stored — and the
no-two-stored-chunks-share-an-id invariant is preserved across the second
run. -/
theorem reindex_idempotent (render : String → String) (fs : CorpusFS) (c : Collection) :
    (initialize_knowledge_base render (VectorBTProExpert.mk DEFAULT_SYSTEM_PROMPT fs
        (initialize_knowledge_base render
          (VectorBTProExpert.mk DEFAULT_SYSTEM_PROMPT fs c false)).collection
        false)).collection
      = (initialize_knowledge_base render
          (VectorBTProExpert.mk DEFAULT_SYSTEM_PROMPT fs c false)).collection ∧
    (((initialize_knowledge_base render
        (VectorBTProExpert.mk DEFAULT_SYSTEM_PROMPT fs c false)).collection.docs.map
          StoredDoc.id).Nodup →
      ((initialize_knowledge_base render (VectorBTProExpert.mk DEFAULT_SYSTEM_PROMPT fs
          (initialize_knowledge_base render
            (VectorBTProExpert.mk DEFAULT_SYSTEM_PROMPT fs c false)).collection
          false)).collection.docs.map StoredDoc.id).Nodup) := by
  have key : ∀ x : Collection,
      (initialize_knowledge_base render
          (VectorBTProExpert.mk DEFAULT_SYSTEM_PROMPT fs x false)).collection
        = if fs.docs_exists = false then x
          else if fs.md_files = [] then x
          else Collection.mk (x.docs ++ newDocsOf render fs x) := by
    intro x
    unfold initialize_knowledge_base
    by_cases hex : fs.docs_exists = false
    · simp [hex]
    · by_cases hmd : fs.md_files = []
      · simp [hex, hmd]
      · simp [hex, hmd]
  have hrun : (initialize_knowledge_base render (VectorBTProExpert.mk DEFAULT_SYSTEM_PROMPT fs
      (initialize_knowledge_base render
        (VectorBTProExpert.mk DEFAULT_SYSTEM_PROMPT fs c false)).collection
      false)).collection
      = (initialize_knowledge_base render
          (VectorBTProExpert.mk DEFAULT_SYSTEM_PROMPT fs c false)).collection := by
    simp only [key]
    by_cases hex : fs.docs_exists = false
    · simp [hex]
    · by_cases hmd : fs.md_files = []
      · simp [hex, hmd]
      · simp only [if_neg hex, if_neg hmd]
        rw [newDocsOf_idempotent, List.append_nil]
  refine ⟨hrun, fun h => ?_⟩
  rw [hrun]
  exact h

/-- Witness for reindex_idempotent: one markdown file indexed twice from an
empty collection. -/
theorem reindex_idempotent_witness :
    (initialize_knowledge_base id (VectorBTProExpert.mk DEFAULT_SYSTEM_PROMPT
        (CorpusFS.mk true [MDFile.mk ("intro") ("intro.md") ("hello world")])
        (initialize_knowledge_base id
          (VectorBTProExpert.mk DEFAULT_SYSTEM_PROMPT
            (CorpusFS.mk true [MDFile.mk ("intro") ("intro.md") ("hello world")])
            (Collection.mk []) false)).collection
        false)).collection
      = (initialize_knowledge_base id
          (VectorBTProExpert.mk DEFAULT_SYSTEM_PROMPT
            (CorpusFS.mk true [MDFile.mk ("intro") ("intro.md") ("hello world")])
            (Collection.mk []) false)).collection ∧
    ((initialize_knowledge_base id (VectorBTProExpert.mk DEFAULT_SYSTEM_PROMPT
        (CorpusFS.mk true [MDFile.mk ("intro") ("intro.md") ("hello world")])
        (initialize_knowledge_base id
          (VectorBTProExpert.mk DEFAULT_SYSTEM_PROMPT
            (CorpusFS.mk true [MDFile.mk ("intro") ("intro.md") ("hello world")])
            (Collection.mk []) false)).collection
        false)).collection.docs.map StoredDoc.id).Nodup :=
  ⟨(reindex_idempotent id
      (CorpusFS.mk true [MDFile.mk ("intro") ("intro.md") ("hello world")])
      (Collection.mk [])).1,
   (reindex_idempotent id
      (CorpusFS.mk true [MDFile.mk ("intro") ("intro.md") ("hello world")])
      (Collection.mk [])).2 (by decide)⟩

/-- The QueryResponse pydantic model (agent_backend.py lines 294-297). -/
structure QueryResponse where
  response : String
  code : Option String
  status : String
  deriving DecidableEq

/-- Model of query_agent_endpoint (agent_backend.py lines 348-360): the
global agent may be absent (none) and the request carries the query and the
optional history; rag and outcome model the retrieval result and the external
model call consumed by generate_response. The except branch of lines 358-360
is unreachable in the model because generate_response and
extract_python_code are total. -/
def query_agent_endpoint (agent : Option VectorBTProExpert) (q : String)
    (ctx : Option (List (List (String × String)))) (rag : List String)
    (outcome : ModelOutcome) : QueryResponse :=
  match agent with
  | none =>
    QueryResponse.mk ("Agent not initialized. Please call /initialize first.")
      none ("agent_not_initialized")
  | some a =>
    if a.is_initialized = false then
      QueryResponse.mk ("Agent not initialized. Please call /initialize first.")
        none ("agent_not_initialized")
    else
      let raw := generate_response a q ctx rag outcome
      QueryResponse.mk raw (extract_python_code raw) ("success")

/-- C8: whenever no agent exists or the session is not initialized, the query
endpoint returns the fixed agent_not_initialized response without raising. -/
theorem query_endpoint_not_initialized (agent : Option VectorBTProExpert)
    (q : String) (ctx : Option (List (List (String × String)))) (rag : List String)
    (outcome : ModelOutcome)
    (h : agent = none ∨ ∃ a, agent = some a ∧ a.is_initialized = false) :
    query_agent_endpoint agent q ctx rag outcome =
      QueryResponse.mk ("Agent not initialized. Please call /initialize first.")
        none ("agent_not_initialized") := by
  rcases h with h | ⟨a, ha, hinit⟩
  · subst h
    rfl
  · subst ha
    simp [query_agent_endpoint, hinit]

/-- Witness for query_endpoint_not_initialized with no agent, and with an
uninitialized agent. -/
theorem query_endpoint_not_initialized_witness :
    query_agent_endpoint none ("hi") none [] (ModelOutcome.exn ("e")) =
      QueryResponse.mk ("Agent not initialized. Please call /initialize first.")
        none ("agent_not_initialized") ∧
    query_agent_endpoint
        (some (VectorBTProExpert.mk ("sys") (CorpusFS.mk true []) (Collection.mk []) false))
        ("hi") none [] (ModelOutcome.exn ("e")) =
      QueryResponse.mk ("Agent not initialized. Please call /initialize first.")
        none ("agent_not_initialized") :=
  ⟨query_endpoint_not_initialized none ("hi") none [] (ModelOutcome.exn ("e"))
      (Or.inl rfl),
   query_endpoint_not_initialized
      (some (VectorBTProExpert.mk ("sys") (CorpusFS.mk true []) (Collection.mk []) false))
      ("hi") none [] (ModelOutcome.exn ("e"))
      (Or.inr ⟨_, rfl, rfl⟩)⟩

/-- C10: the query endpoint's status is always success or
agent_not_initialized — its error branch is unreachable since
generate_response catches every model failure and returns a string — and on
an initialized session the status is success for every model outcome,
failures being reported only inside the response text. -/
theorem query_endpoint_status (agent : Option VectorBTProExpert) (q : String)
    (ctx : Option (List (List (String × String)))) (rag : List String)
    (outcome : ModelOutcome) :
    ((query_agent_endpoint agent q ctx rag outcome).status = "success" ∨
      (query_agent_endpoint agent q ctx rag outcome).status = "agent_not_initialized") ∧
    (∀ a, agent = some a → a.is_initialized = true →
      (query_agent_endpoint agent q ctx rag outcome).status = "success" ∧
      (query_agent_endpoint agent q ctx rag outcome).response
        = generate_response a q ctx rag outcome) := by
  constructor
  · cases agent with
    | none => right; rfl
    | some a =>
      by_cases hinit : a.is_initialized = false
      · right
        simp [query_agent_endpoint, hinit]
      · left
        simp [query_agent_endpoint, hinit]
  · intro a ha hinit
    subst ha
    constructor
    · simp [query_agent_endpoint, hinit]
    · simp [query_agent_endpoint, hinit]

/-- Witness for query_endpoint_status: an initialized session with a failing
model call still reports status success. -/
theorem query_endpoint_status_witness :
    ((query_agent_endpoint
        (some (VectorBTProExpert.mk ("sys") (CorpusFS.mk true []) (Collection.mk []) true))
        ("hi") none [] (ModelOutcome.exn ("down"))).status = "success" ∨
      (query_agent_endpoint
        (some (VectorBTProExpert.mk ("sys") (CorpusFS.mk true []) (Collection.mk []) true))
        ("hi") none [] (ModelOutcome.exn ("down"))).status = "agent_not_initialized") ∧
    (query_agent_endpoint
        (some (VectorBTProExpert.mk ("sys") (CorpusFS.mk true []) (Collection.mk []) true))
        ("hi") none [] (ModelOutcome.exn ("down"))).status = "success" :=
  ⟨(query_endpoint_status
      (some (VectorBTProExpert.mk ("sys") (CorpusFS.mk true []) (Collection.mk []) true))
      ("hi") none [] (ModelOutcome.exn ("down"))).1,
   ((query_endpoint_status
      (some (VectorBTProExpert.mk ("sys") (CorpusFS.mk true []) (Collection.mk []) true))
      ("hi") none [] (ModelOutcome.exn ("down"))).2 _ rfl rfl).1⟩

/-- The module constant MAX_CONTEXT_HISTORY (jupyter_extension.py line 11). -/
def MAX_CONTEXT_HISTORY : Nat := 5

/-- One conversation turn of the notebook client's history. -/
structure TurnMsg where
  role : String
  content : String

/-- Model of VectorBTProMagics._add_to_context (jupyter_extension.py lines
20-24): when the history has reached MAX_CONTEXT_HISTORY * 2 entries it is
trimmed to its last MAX_CONTEXT_HISTORY * 2 - 2 entries, then the new message
is appended. -/
def _add_to_context (history : List TurnMsg) (t : TurnMsg) : List TurnMsg :=
  (if MAX_CONTEXT_HISTORY * 2 ≤ history.length then
    history.drop (history.length - (MAX_CONTEXT_HISTORY * 2 - 2))
  else history) ++ [t]

/-- Model of VectorBTProWidget._add_to_widget_context (jupyter_extension.py
lines 191-195), identical to _add_to_context but acting on the widget's
independent history. -/
def _add_to_widget_context (history : List TurnMsg) (t : TurnMsg) : List TurnMsg :=
  (if MAX_CONTEXT_HISTORY * 2 ≤ history.length then
    history.drop (history.length - (MAX_CONTEXT_HISTORY * 2 - 2))
  else history) ++ [t]

theorem add_to_context_length (h : List TurnMsg) (t : TurnMsg)
    (hb : h.length ≤ 2 * MAX_CONTEXT_HISTORY) :
    (_add_to_context h t).length ≤ 2 * MAX_CONTEXT_HISTORY := by
  unfold MAX_CONTEXT_HISTORY at hb
  unfold _add_to_context MAX_CONTEXT_HISTORY
  by_cases hc : 5 * 2 ≤ h.length
  · rw [if_pos hc]
    simp only [List.length_append, List.length_drop, List.length_cons, List.length_nil]
    omega
  · rw [if_neg hc]
    simp only [List.length_append, List.length_cons, List.length_nil]
    omega

theorem foldl_add_to_context_length (msgs : List TurnMsg) :
    ∀ init : List TurnMsg, init.length ≤ 2 * MAX_CONTEXT_HISTORY →
      (List.foldl _add_to_context init msgs).length ≤ 2 * MAX_CONTEXT_HISTORY := by
  induction msgs with
  | nil => intro init h; exact h
  | cons t ts ih =>
    intro init h
    exact ih (_add_to_context init t) (add_to_context_length init t h)

theorem add_to_context_suffix (h s : List TurnMsg) (t : TurnMsg)
    (hs : h <:+ s) : _add_to_context h t <:+ s ++ [t] := by
  unfold _add_to_context
  have htrim : (if MAX_CONTEXT_HISTORY * 2 ≤ h.length then
      h.drop (h.length - (MAX_CONTEXT_HISTORY * 2 - 2)) else h) <:+ s := by
    by_cases hc : MAX_CONTEXT_HISTORY * 2 ≤ h.length
    · rw [if_pos hc]
      exact (List.drop_suffix _ _).trans hs
    · rw [if_neg hc]
      exact hs
  obtain ⟨u, hu⟩ := htrim
  exact ⟨u, by rw [← List.append_assoc, hu]⟩

theorem foldl_add_to_context_suffix (msgs : List TurnMsg) :
    ∀ (init s : List TurnMsg), init <:+ s →
      List.foldl _add_to_context init msgs <:+ s ++ msgs := by
  induction msgs with
  | nil => intro init s h; simpa using h
  | cons t ts ih =>
    intro init s h
    have step := add_to_context_suffix init s t h
    have := ih (_add_to_context init t) (s ++ [t]) step
    rwa [List.append_assoc, List.singleton_append] at this

/-- C9: starting from the empty history, any sequence of messages appended
through _add_to_context (and likewise _add_to_widget_context) leaves at most
2 * MAX_CONTEXT_HISTORY entries, and the surviving history is a suffix of the
appended message sequence: eviction removes the oldest entries first and the
order of the remaining entries is preserved. -/
theorem context_history_bounded_fifo (msgs : List TurnMsg) :
    (List.foldl _add_to_context [] msgs).length ≤ 2 * MAX_CONTEXT_HISTORY ∧
    List.foldl _add_to_context [] msgs <:+ msgs ∧
    (List.foldl _add_to_widget_context [] msgs).length ≤ 2 * MAX_CONTEXT_HISTORY ∧
    List.foldl _add_to_widget_context [] msgs <:+ msgs := by
  have hsame : _add_to_widget_context = _add_to_context := rfl
  refine ⟨foldl_add_to_context_length msgs [] (by simp [MAX_CONTEXT_HISTORY]), ?_, ?_, ?_⟩
  · simpa using foldl_add_to_context_suffix msgs [] [] ⟨[], rfl⟩
  · rw [hsame]
    exact foldl_add_to_context_length msgs [] (by simp [MAX_CONTEXT_HISTORY])
  · rw [hsame]
    simpa using foldl_add_to_context_suffix msgs [] [] ⟨[], rfl⟩

end VbtAgent
